import Mathlib

/-!
Verification of the kiutils netlist module (src/kiutils/netlist.py and
src/kiutils/items/netitems.py): a shallow embedding of the S-expression
decoders and encoders for KiCad eeschema netlist exports, together with
theorems settling the behavioural claims about them.

The generic parsed representation is a tree of string atoms and lists
(spec section 4.1).  Decoders mirror the Python source line by line;
Python runtime failures (IndexError, NameError, raised Exception,
failed assert, ...) are modelled by an explicit error type.
-/

/-- The generic nested-list value produced by the list parser: an atom is a
string, a group is an ordered sequence of values (spec section 3 / 4.1). -/
inductive SExp where
  | atom : String → SExp
  | list : List SExp → SExp

mutual

/-- Decidable equality for parsed values. -/
def SExp.decEq : (a b : SExp) → Decidable (a = b)
  | .atom x, .atom y =>
    match String.decEq x y with
    | isTrue h => isTrue (by rw [h])
    | isFalse h => isFalse (fun hh => by cases hh; exact h rfl)
  | .atom _, .list _ => isFalse (fun h => by cases h)
  | .list _, .atom _ => isFalse (fun h => by cases h)
  | .list xs, .list ys =>
    match SExp.decEqList xs ys with
    | isTrue h => isTrue (by rw [h])
    | isFalse h => isFalse (fun hh => by cases hh; exact h rfl)

/-- Decidable equality for lists of parsed values. -/
def SExp.decEqList : (xs ys : List SExp) → Decidable (xs = ys)
  | [], [] => isTrue rfl
  | [], _ :: _ => isFalse (fun h => by cases h)
  | _ :: _, [] => isFalse (fun h => by cases h)
  | x :: xs, y :: ys =>
    match SExp.decEq x y with
    | isFalse h => isFalse (fun hh => by cases hh; exact h rfl)
    | isTrue h1 =>
      match SExp.decEqList xs ys with
      | isTrue h2 => isTrue (by rw [h1, h2])
      | isFalse h => isFalse (fun hh => by cases hh; exact h rfl)

end

instance : DecidableEq SExp := SExp.decEq

deriving instance DecidableEq for Except

/-- Runtime failures of the Python decoders/encoders.  `notAList` and
`wrongTag` are the two `Exception("Expression does not have the correct
type")` raises, `unknownSection` is `Exception("Unexpected list item ...")`
in `Netlist.from_sexpr`, `missingCommentNumber` is
`Exception("Missing comment number")`, `assertionFailed` is the
`assert fp[0] == 'fp'` in `NetlistLibpart.from_sexpr`, `nameErr` is the
NameError raised by the `datetime.strptime` call in
`NetlistTitleBlock.from_sexpr` (`datetime` is not imported in netitems.py),
`nameUnbound` is a read of the local `comment` before any assignment,
`indexErr`/`typeErr`/`valueErr` are the corresponding Python built-in errors,
and `dequoteNone` is `dequote` applied to an absent (None) value. -/
inductive PyErr where
  | notAList : PyErr
  | wrongTag : PyErr
  | unknownSection : SExp → PyErr
  | missingCommentNumber : PyErr
  | assertionFailed : PyErr
  | nameErr : PyErr
  | nameUnbound : PyErr
  | indexErr : PyErr
  | typeErr : PyErr
  | valueErr : PyErr
  | dequoteNone : PyErr
deriving DecidableEq

/-- Failures of the raw-text list parser (spec section 4.1 / 7). -/
inductive ParseErr where
  | unbalanced : ParseErr
  | unterminatedQuote : ParseErr
  | notSingleExpr : ParseErr
deriving DecidableEq

namespace SExp

/-- Python `x[0]` on a parsed value: the first element of a list, or the
first character (as a one-character string) of an atom; IndexError when
empty.  The decoders use this for tag dispatch. -/
def py0 : SExp → Except PyErr SExp
  | .atom s =>
    match s.toList with
    | [] => .error .indexErr
    | c :: _ => .ok (.atom c.toString)
  | .list [] => .error .indexErr
  | .list (x :: _) => .ok x

/-- Python `x[1]` on a parsed value; IndexError when out of range. -/
def py1 : SExp → Except PyErr SExp
  | .atom s =>
    match s.toList.drop 1 with
    | [] => .error .indexErr
    | c :: _ => .ok (.atom c.toString)
  | .list xs =>
    match xs.get? 1 with
    | some x => .ok x
    | none => .error .indexErr

/-- Python `x[1:]`: the remaining elements of a list (or remaining
characters of an atom, each a one-character string). -/
def pyTail : SExp → List SExp
  | .atom s => (s.toList.drop 1).map (fun c => SExp.atom c.toString)
  | .list xs => xs.drop 1

/-- Python `len(x)`. -/
def pyLen : SExp → Nat
  | .atom s => s.toList.length
  | .list xs => xs.length

/-- Python `x == "tag"` for a parsed value: true exactly when the value is
the given string atom (a list never equals a string). -/
def isA (e : SExp) (t : String) : Bool :=
  match e with
  | .atom s => s == t
  | .list _ => false

/-- Coerce a parsed value into the string a typed record field holds.  The
decoders assign `item[1]` (and similar) into `str`-annotated dataclass
fields; every input the format produces puts an atom there, and a group in
that position would poison the typed record, so the embedding reports it as
a type error. -/
def asStr : SExp → Except PyErr String
  | .atom s => .ok s
  | .list _ => .error .typeErr

end SExp

/-- Python `int(s)`: parse a decimal integer with optional sign, ValueError
(here `none`) otherwise.  (Python additionally tolerates surrounding
whitespace, a leading `+` and inner underscores; no decoded tag in this
format uses those forms.) -/
def decDigits (cs : List Char) : Option Nat :=
  if cs.isEmpty then none
  else
    cs.foldl
      (fun acc c =>
        match acc with
        | some n => if c.isDigit then some (n * 10 + (c.toNat - 48)) else none
        | none => none)
      (some 0)

def pyInt (s : String) : Option Int :=
  match s.toList with
  | '-' :: cs => (decDigits cs).map (fun n => -(n : Int))
  | cs => (decDigits cs).map (fun n => (n : Int))

/-- Python `lst[i] = v` with an `int` index: negative indices count from the
end, out-of-range indices raise IndexError. -/
def pySetIdx {α : Type} (xs : List α) (i : Int) (v : α) : Except PyErr (List α) :=
  let n : Int := xs.length
  let j : Int := if i < 0 then i + n else i
  if 0 ≤ j ∧ j < n then .ok (xs.set j.toNat v) else .error .indexErr

/-- Python `' ' * indent`. -/
def spaces (n : Nat) : String :=
  String.mk (List.replicate n ' ')

/-- Modelled from the spec: the string-escaping helper
`kiutils.utils.strings.dequote` is not part of the provided sources;
spec section 4.3 specifies that string values are emitted with internal
double quotes and backslashes escaped, which this definition performs
character by character. -/
def dequote (s : String) : String :=
  String.mk
    (s.toList.foldr
      (fun c acc =>
        if c = '\\' then '\\' :: '\\' :: acc
        else if c = '"' then '\\' :: '"' :: acc
        else c :: acc)
      [])

/-- The comment loop of `NetlistTitleBlock.to_sexpr` applies `dequote` to a
comment that may be absent (None).  `dequote` is specified only for strings
(spec section 4.3), so an absent value is an encoding failure. -/
def dequoteOpt : Option String → Except PyErr String
  | some s => .ok (dequote s)
  | none => .error .dequoteNone

/-! ## The raw-text list parser (spec section 4.1)

Modelled from the spec: `kiutils.utils.sexpr.parse_sexp` is not part of the
provided sources.  Spec section 4.1: bare atoms are delimited by whitespace
and parentheses; quoted atoms resolve the escapes the serializer produces
and are returned with the quotes stripped; unbalanced parentheses or a
malformed document are a parse error. -/

inductive Tok where
  | lpar : Tok
  | rpar : Tok
  | atomTok : String → Tok
deriving DecidableEq

inductive TokMode where
  | normal : TokMode
  | bare : String → TokMode
  | quoted : String → Bool → TokMode
deriving DecidableEq

structure TokSt where
  toks : List Tok := []
  mode : TokMode := .normal

/-- One tokenizer step: consume a character, updating the (reversed) token
list and the scanning mode.  In quoted mode a pending backslash makes the
next character literal (resolving the serializer's escapes). -/
def tokStep (st : TokSt) (c : Char) : TokSt :=
  match st.mode with
  | .quoted acc true => { st with mode := .quoted (acc.push c) false }
  | .quoted acc false =>
    if c = '\\' then { st with mode := .quoted acc true }
    else if c = '"' then { toks := .atomTok acc :: st.toks, mode := .normal }
    else { st with mode := .quoted (acc.push c) false }
  | .bare acc =>
    if c = '(' then { toks := .lpar :: .atomTok acc :: st.toks, mode := .normal }
    else if c = ')' then { toks := .rpar :: .atomTok acc :: st.toks, mode := .normal }
    else if c.isWhitespace then { toks := .atomTok acc :: st.toks, mode := .normal }
    else if c = '"' then { toks := .atomTok acc :: st.toks, mode := .quoted "" false }
    else { st with mode := .bare (acc.push c) }
  | .normal =>
    if c = '(' then { toks := .lpar :: st.toks, mode := .normal }
    else if c = ')' then { toks := .rpar :: st.toks, mode := .normal }
    else if c.isWhitespace then st
    else if c = '"' then { st with mode := .quoted "" false }
    else { st with mode := .bare c.toString }

/-- Tokenize raw text; an unterminated quoted atom is a parse error. -/
def tokenize (s : String) : Except ParseErr (List Tok) :=
  let st := s.toList.foldl tokStep {}
  match st.mode with
  | .quoted _ _ => .error .unterminatedQuote
  | .bare acc => .ok ((Tok.atomTok acc :: st.toks).reverse)
  | .normal => .ok st.toks.reverse

/-- One step of the stack-based group builder: each stack frame is the
(reversed) contents of an open group, the bottom frame collecting the
finished top-level expressions. -/
def parseStepTok (stack : List (List SExp)) (t : Tok) :
    Except ParseErr (List (List SExp)) :=
  match t, stack with
  | .lpar, st => .ok ([] :: st)
  | .atomTok s, frame :: rest => .ok ((SExp.atom s :: frame) :: rest)
  | .atomTok _, [] => .error .unbalanced
  | .rpar, frame :: parent :: rest => .ok ((SExp.list frame.reverse :: parent) :: rest)
  | .rpar, _ => .error .unbalanced

/-- Parse raw text into the single expression it contains (spec section
4.1: the input is one parenthesized document; empty or malformed input is
a parse error). -/
def parseSexp (s : String) : Except ParseErr SExp := do
  let toks ← tokenize s
  let stack ← toks.foldlM parseStepTok [[]]
  match stack with
  | [frame] =>
    match frame.reverse with
    | [e] => .ok e
    | _ => .error .notSingleExpr
  | _ => .error .unbalanced

/-! ## The typed records (netitems.py / netlist.py dataclasses) -/

/-- Embedding of `NetlistTitleBlock` (netitems.py lines 21-29): five optional scalar
strings, the required source filename, and the fixed sequence of nine
optional comment strings. -/
structure NetlistTitleBlock where
  company : Option String := none
  title : Option String := none
  name : Option String := none
  rev : Option String := none
  date : Option String := none
  source : String := ""
  comments : List (Option String) := List.replicate 9 none
deriving DecidableEq

/-- One step of the loop over a `comment` sub-list's elements (netitems.py
lines 60-64).  The state is the pair of Python locals `index` and `comment`;
the two `if` tests for `number` and `value` are independent (not `elif`). -/
def commentSubStep (st : Int × Option String) (sub : SExp) :
    Except PyErr (Int × Option String) := do
  let sh ← sub.py0
  let st1 ←
    if sh.isA "number" then do
      let v ← sub.py1
      let s ← v.asStr
      match pyInt s with
      | some k => pure (k - 1, st.2)
      | none => Except.error PyErr.valueErr
    else pure st
  if sh.isA "value" then do
    let v ← sub.py1
    let s ← v.asStr
    pure (st1.1, some s)
  else pure st1

/-- One step of the item loop of `NetlistTitleBlock.from_sexpr`
(netitems.py lines 52-67).  The state carries the record under construction
together with the function-scoped Python local `comment`, which survives
from one `comment` item to the next.  The `company` branch is the source's
`object.company = datetime.strptime(item[1])`: `datetime` is not imported
in netitems.py (and `strptime` is missing its format argument), so taking
the branch raises NameError. -/
def titleBlockStep (st : NetlistTitleBlock × Option String) (item : SExp) :
    Except PyErr (NetlistTitleBlock × Option String) := do
  let h ← item.py0
  if h.isA "title" && item.pyLen > 1 then do
    let v ← item.py1
    let s ← v.asStr
    pure ({ st.1 with title := some s }, st.2)
  else if h.isA "company" && item.pyLen > 1 then
    Except.error PyErr.nameErr
  else if h.isA "rev" && item.pyLen > 1 then do
    let v ← item.py1
    let s ← v.asStr
    pure ({ st.1 with rev := some s }, st.2)
  else if h.isA "date" && item.pyLen > 1 then do
    let v ← item.py1
    let s ← v.asStr
    pure ({ st.1 with date := some s }, st.2)
  else if h.isA "source" then do
    let v ← item.py1
    let s ← v.asStr
    pure ({ st.1 with source := s }, st.2)
  else if h.isA "comment" then do
    let r ← item.pyTail.foldlM commentSubStep (-1, st.2)
    if r.1 = -1 then Except.error PyErr.missingCommentNumber
    else
      match r.2 with
      | none => Except.error PyErr.nameUnbound
      | some c => do
        let cm ← pySetIdx st.1.comments r.1 (some c)
        pure ({ st.1 with comments := cm }, some c)
  else pure st

/-- Embedding of `NetlistTitleBlock.from_sexpr` (netitems.py lines 31-68). -/
def NetlistTitleBlock.from_sexpr (exp : SExp) : Except PyErr NetlistTitleBlock :=
  match exp with
  | .atom _ => .error .notAList
  | .list _ => do
    let h ← exp.py0
    if h.isA "title_block" then do
      let r ← exp.pyTail.foldlM titleBlockStep ({}, none)
      pure r.1
    else .error .wrongTag

/-- The comment loop of `NetlistTitleBlock.to_sexpr` (netitems.py lines
105-106): every one of the nine entries is rendered, with its 1-based
index, whether or not the comment is present. -/
def commentLinesFold (indents : String) (init : String)
    (cs : List (Nat × Option String)) : Except PyErr String :=
  cs.foldlM
    (fun acc ic => do
      let c ← dequoteOpt ic.2
      pure (acc ++ indents ++ "  (comment (number \"" ++ toString (ic.1 + 1)
        ++ "\") (value \"" ++ c ++ "\"))\n"))
    init

/-- Embedding of `NetlistTitleBlock.to_sexpr` (netitems.py lines 70-109): the four
optional scalars render as quoted values when present and as empty tags
when absent; the `name` field is never rendered; the source line is always
rendered; every comment entry is rendered. -/
def NetlistTitleBlock.to_sexpr (tb : NetlistTitleBlock)
    (indent : Nat := 2) (newline : Bool := true) : Except PyErr String := do
  let indents := spaces indent
  let endline := if newline then "\n" else ""
  let e1 := indents ++ "(title_block\n"
  let e2 := e1 ++
    (match tb.title with
     | some t => indents ++ "  (title \"" ++ dequote t ++ "\")\n"
     | none => indents ++ "  (title)\n")
  let e3 := e2 ++
    (match tb.company with
     | some t => indents ++ "  (company \"" ++ dequote t ++ "\")\n"
     | none => indents ++ "  (company)\n")
  let e4 := e3 ++
    (match tb.rev with
     | some t => indents ++ "  (rev \"" ++ dequote t ++ "\")\n"
     | none => indents ++ "  (rev)\n")
  let e5 := e4 ++
    (match tb.date with
     | some t => indents ++ "  (date \"" ++ dequote t ++ "\")\n"
     | none => indents ++ "  (date)\n")
  let e6 := e5 ++ indents ++ "  (source \"" ++ dequote tb.source ++ "\")\n"
  let e7 ← commentLinesFold indents e6 tb.comments.enum
  pure (e7 ++ indents ++ ")" ++ endline)

/-- Embedding of `NetlistSheet` (netitems.py lines 111-124): a hierarchical sheet. -/
structure NetlistSheet where
  number : String := ""
  name : String := ""
  tstamps : String := ""
  title_block : NetlistTitleBlock := {}
deriving DecidableEq

/-- One step of the item loop of `NetlistSheet.from_sexpr` (netitems.py
lines 147-152); unknown tags are silently ignored. -/
def sheetStep (sh : NetlistSheet) (item : SExp) : Except PyErr NetlistSheet := do
  let h ← item.py0
  if h.isA "number" then do
    let v ← item.py1
    let s ← v.asStr
    pure { sh with number := s }
  else if h.isA "name" then do
    let v ← item.py1
    let s ← v.asStr
    pure { sh with name := s }
  else if h.isA "tstamps" then do
    let v ← item.py1
    let s ← v.asStr
    pure { sh with tstamps := s }
  else if h.isA "title_block" then do
    let tb ← NetlistTitleBlock.from_sexpr item
    pure { sh with title_block := tb }
  else pure sh

/-- Embedding of `NetlistSheet.from_sexpr` (netitems.py lines 126-153). -/
def NetlistSheet.from_sexpr (exp : SExp) : Except PyErr NetlistSheet :=
  match exp with
  | .atom _ => .error .notAList
  | .list _ => do
    let h ← exp.py0
    if h.isA "sheet" then
      exp.pyTail.foldlM sheetStep {}
    else .error .wrongTag

/-- Embedding of `NetlistSheet.to_sexpr` (netitems.py lines 155-174). -/
def NetlistSheet.to_sexpr (sh : NetlistSheet)
    (indent : Nat := 2) (newline : Bool := true) : Except PyErr String := do
  let indents := spaces indent
  let endline := if newline then "\n" else ""
  let e1 := indents ++ "(sheet"
    ++ " (number \"" ++ dequote sh.number ++ "\")"
    ++ " (name \"" ++ dequote sh.name ++ "\")"
    ++ " (tstamps \"" ++ dequote sh.tstamps ++ "\")\n"
  let tb ← sh.title_block.to_sexpr (indent + 2) true
  pure (e1 ++ tb ++ indents ++ ")" ++ endline)

/-- Embedding of `NetlistDesign` (netitems.py lines 176-195): the document header. -/
structure NetlistDesign where
  source : String := ""
  date : String := ""
  tool : String := ""
  sheets : List NetlistSheet := []
deriving DecidableEq

/-- One step of the item loop of `NetlistDesign.from_sexpr` (netitems.py
lines 218-225); unknown tags are silently ignored. -/
def designStep (d : NetlistDesign) (item : SExp) : Except PyErr NetlistDesign := do
  let h ← item.py0
  if h.isA "source" then do
    let v ← item.py1
    let s ← v.asStr
    pure { d with source := s }
  else if h.isA "date" then do
    let v ← item.py1
    let s ← v.asStr
    pure { d with date := s }
  else if h.isA "tool" then do
    let v ← item.py1
    let s ← v.asStr
    pure { d with tool := s }
  else if h.isA "sheet" then do
    let sh ← NetlistSheet.from_sexpr item
    pure { d with sheets := d.sheets ++ [sh] }
  else pure d

/-- Embedding of `NetlistDesign.from_sexpr` (netitems.py lines 197-226). -/
def NetlistDesign.from_sexpr (exp : SExp) : Except PyErr NetlistDesign :=
  match exp with
  | .atom _ => .error .notAList
  | .list _ => do
    let h ← exp.py0
    if h.isA "design" then
      exp.pyTail.foldlM designStep {}
    else .error .wrongTag

/-- Embedding of `NetlistDesign.to_sexpr` (netitems.py lines 228-248). -/
def NetlistDesign.to_sexpr (d : NetlistDesign)
    (indent : Nat := 2) (newline : Bool := true) : Except PyErr String := do
  let indents := spaces indent
  let endline := if newline then "\n" else ""
  let e1 := indents ++ "(design\n"
    ++ indents ++ "  (source \"" ++ dequote d.source ++ "\")\n"
    ++ indents ++ "  (date \"" ++ dequote d.date ++ "\")\n"
    ++ indents ++ "  (tool \"" ++ dequote d.tool ++ "\")\n"
  let e2 ← d.sheets.foldlM
    (fun acc sh => do
      let s ← sh.to_sexpr (indent + 2) true
      pure (acc ++ s))
    e1
  pure (e2 ++ indents ++ ")" ++ endline)

/-- Embedding of `NetlistLibsource` (netitems.py lines 250-259). -/
structure NetlistLibsource where
  lib : String := ""
  part : String := ""
  description : String := ""
deriving DecidableEq

/-- One step of the item loop of `NetlistLibsource.from_sexpr` (netitems.py
lines 282-285). -/
def libsourceStep (l : NetlistLibsource) (item : SExp) :
    Except PyErr NetlistLibsource := do
  let h ← item.py0
  if h.isA "lib" then do
    let v ← item.py1
    let s ← v.asStr
    pure { l with lib := s }
  else if h.isA "part" then do
    let v ← item.py1
    let s ← v.asStr
    pure { l with part := s }
  else if h.isA "description" then do
    let v ← item.py1
    let s ← v.asStr
    pure { l with description := s }
  else pure l

/-- Embedding of `NetlistLibsource.from_sexpr` (netitems.py lines 261-286). -/
def NetlistLibsource.from_sexpr (exp : SExp) : Except PyErr NetlistLibsource :=
  match exp with
  | .atom _ => .error .notAList
  | .list _ => do
    let h ← exp.py0
    if h.isA "libsource" then
      exp.pyTail.foldlM libsourceStep {}
    else .error .wrongTag

/-- Embedding of `NetlistLibsource.to_sexpr` (netitems.py lines 288-300). -/
def NetlistLibsource.to_sexpr (l : NetlistLibsource)
    (indent : Nat := 2) (newline : Bool := true) : String :=
  let indents := spaces indent
  let endline := if newline then "\n" else ""
  indents ++ "(libsource (lib \"" ++ dequote l.lib ++ "\") (part \""
    ++ dequote l.part ++ "\") (description \"" ++ dequote l.description
    ++ "\"))" ++ endline

/-- Embedding of `NetlistSheetpath` (netitems.py lines 303-306). -/
structure NetlistSheetpath where
  names : String := ""
  tstamps : String := ""
deriving DecidableEq

/-- One step of the item loop of `NetlistSheetpath.from_sexpr` (netitems.py
lines 328-330). -/
def sheetpathStep (p : NetlistSheetpath) (item : SExp) :
    Except PyErr NetlistSheetpath := do
  let h ← item.py0
  if h.isA "names" then do
    let v ← item.py1
    let s ← v.asStr
    pure { p with names := s }
  else if h.isA "tstamps" then do
    let v ← item.py1
    let s ← v.asStr
    pure { p with tstamps := s }
  else pure p

/-- Embedding of `NetlistSheetpath.from_sexpr` (netitems.py lines 307-331). -/
def NetlistSheetpath.from_sexpr (exp : SExp) : Except PyErr NetlistSheetpath :=
  match exp with
  | .atom _ => .error .notAList
  | .list _ => do
    let h ← exp.py0
    if h.isA "sheetpath" then
      exp.pyTail.foldlM sheetpathStep {}
    else .error .wrongTag

/-- Embedding of `NetlistSheetpath.to_sexpr` (netitems.py lines 333-350). -/
def NetlistSheetpath.to_sexpr (p : NetlistSheetpath)
    (indent : Nat := 2) (newline : Bool := true) : String :=
  let indents := spaces indent
  let endline := if newline then "\n" else ""
  indents ++ "(sheetpath" ++ " (names \"" ++ dequote p.names ++ "\")"
    ++ " (tstamps \"" ++ dequote p.tstamps ++ "\")" ++ ")" ++ endline

/-- Embedding of `NetlistField` (netitems.py lines 352-355): name plus optional value. -/
structure NetlistField where
  name : String := ""
  value : Option String := none
deriving DecidableEq

/-- One step of the item loop of `NetlistField.from_sexpr` (netitems.py
lines 378-380): a `name` tag sets the name; ANY other element becomes the
value payload (the source stores the raw element; every producer variant
puts an atom there, and a group in that position would poison the typed
record, so the embedding reports a group as a type error). -/
def fieldStep (f : NetlistField) (item : SExp) : Except PyErr NetlistField := do
  let h ← item.py0
  if h.isA "name" then do
    let v ← item.py1
    let s ← v.asStr
    pure { f with name := s }
  else
    match item with
    | .atom s => pure { f with value := some s }
    | .list _ => .error .typeErr

/-- Embedding of `NetlistField.from_sexpr` (netitems.py lines 357-381). -/
def NetlistField.from_sexpr (exp : SExp) : Except PyErr NetlistField :=
  match exp with
  | .atom _ => .error .notAList
  | .list _ => do
    let h ← exp.py0
    if h.isA "field" then
      exp.pyTail.foldlM fieldStep {}
    else .error .wrongTag

/-- Embedding of `NetlistField.to_sexpr` (netitems.py lines 383-396): the value payload
is emitted only when `self.value` is truthy, so an absent value and an
empty-string value both render as a bare `(field (name "..."))`. -/
def NetlistField.to_sexpr (f : NetlistField)
    (indent : Nat := 2) (newline : Bool := true) : String :=
  let indents := spaces indent
  let endline := if newline then "\n" else ""
  let value :=
    match f.value with
    | some v => if v = "" then "" else " \"" ++ dequote v ++ "\""
    | none => ""
  indents ++ "(field (name \"" ++ dequote f.name ++ "\")" ++ value ++ ")" ++ endline

/-- Embedding of `NetlistProperty` (netitems.py lines 398-401). -/
structure NetlistProperty where
  name : String := ""
  value : String := ""
deriving DecidableEq

/-- One step of the item loop of `NetlistProperty.from_sexpr` (netitems.py
lines 423-425). -/
def propertyStep (p : NetlistProperty) (item : SExp) :
    Except PyErr NetlistProperty := do
  let h ← item.py0
  if h.isA "name" then do
    let v ← item.py1
    let s ← v.asStr
    pure { p with name := s }
  else if h.isA "value" then do
    let v ← item.py1
    let s ← v.asStr
    pure { p with value := s }
  else pure p

/-- Embedding of `NetlistProperty.from_sexpr` (netitems.py lines 402-426). -/
def NetlistProperty.from_sexpr (exp : SExp) : Except PyErr NetlistProperty :=
  match exp with
  | .atom _ => .error .notAList
  | .list _ => do
    let h ← exp.py0
    if h.isA "property" then
      exp.pyTail.foldlM propertyStep {}
    else .error .wrongTag

/-- Embedding of `NetlistProperty.to_sexpr` (netitems.py lines 428-440). -/
def NetlistProperty.to_sexpr (p : NetlistProperty)
    (indent : Nat := 2) (newline : Bool := true) : String :=
  let indents := spaces indent
  let endline := if newline then "\n" else ""
  indents ++ "(property (name \"" ++ dequote p.name ++ "\") (value \""
    ++ dequote p.value ++ "\"))" ++ endline

/-- Embedding of `NetlistComponent` (netitems.py lines 442-459). -/
structure NetlistComponent where
  ref : String := ""
  value : String := ""
  tstamps : String := ""
  libsource : NetlistLibsource := {}
  sheetpath : NetlistSheetpath := {}
  fields : List NetlistField := []
  properties : List NetlistProperty := []
deriving DecidableEq

/-- One step of the item loop of `NetlistComponent.from_sexpr` (netitems.py
lines 482-493).  The children of a `fields` wrapper are passed to the Field
decoder directly; a `property` child is decoded and appended; any
unrecognized tag is silently ignored (there is no else branch). -/
def componentStep (c : NetlistComponent) (item : SExp) :
    Except PyErr NetlistComponent := do
  let h ← item.py0
  if h.isA "ref" then do
    let v ← item.py1
    let s ← v.asStr
    pure { c with ref := s }
  else if h.isA "value" then do
    let v ← item.py1
    let s ← v.asStr
    pure { c with value := s }
  else if h.isA "tstamps" then do
    let v ← item.py1
    let s ← v.asStr
    pure { c with tstamps := s }
  else if h.isA "libsource" then do
    let l ← NetlistLibsource.from_sexpr item
    pure { c with libsource := l }
  else if h.isA "sheetpath" then do
    let p ← NetlistSheetpath.from_sexpr item
    pure { c with sheetpath := p }
  else if h.isA "fields" then do
    let fs ← item.pyTail.foldlM
      (fun acc f => do
        let r ← NetlistField.from_sexpr f
        pure (acc ++ [r]))
      c.fields
    pure { c with fields := fs }
  else if h.isA "property" then do
    let p ← NetlistProperty.from_sexpr item
    pure { c with properties := c.properties ++ [p] }
  else pure c

/-- Embedding of `NetlistComponent.from_sexpr` (netitems.py lines 461-494). -/
def NetlistComponent.from_sexpr (exp : SExp) : Except PyErr NetlistComponent :=
  match exp with
  | .atom _ => .error .notAList
  | .list _ => do
    let h ← exp.py0
    if h.isA "comp" then
      exp.pyTail.foldlM componentStep {}
    else .error .wrongTag

/-- Embedding of `NetlistComponent.to_sexpr` (netitems.py lines 496-524): the `fields`
container is emitted only when non-empty (note its closing bracket uses
one space of extra indent where the opener uses two, as in the source). -/
def NetlistComponent.to_sexpr (c : NetlistComponent)
    (indent : Nat := 2) (newline : Bool := true) : String :=
  let indents := spaces indent
  let endline := if newline then "\n" else ""
  let e1 := indents ++ "(comp" ++ " (ref \"" ++ dequote c.ref ++ "\")\n"
    ++ indents ++ "  (value \"" ++ dequote c.value ++ "\")\n"
  let e2 :=
    if c.fields.length > 0 then
      (c.fields.foldl
        (fun acc f => acc ++ f.to_sexpr (indent + 4) true)
        (e1 ++ indents ++ "  (fields\n")) ++ indents ++ " )\n"
    else e1
  let e3 := e2 ++ c.libsource.to_sexpr (indent + 2) true
  let e4 := c.properties.foldl
    (fun acc p => acc ++ p.to_sexpr (indent + 2) true) e3
  let e5 := e4 ++ c.sheetpath.to_sexpr (indent + 2) true
    ++ indents ++ "  (tstamps \"" ++ dequote c.tstamps ++ "\")\n"
  e5 ++ indents ++ ")" ++ endline

/-- Embedding of `NetlistLibrary` (netitems.py lines 526-534). -/
structure NetlistLibrary where
  logical : String := ""
  uri : String := ""
deriving DecidableEq

/-- One step of the item loop of `NetlistLibrary.from_sexpr` (netitems.py
lines 545-547). -/
def libraryStep (l : NetlistLibrary) (item : SExp) :
    Except PyErr NetlistLibrary := do
  let h ← item.py0
  if h.isA "logical" then do
    let v ← item.py1
    let s ← v.asStr
    pure { l with logical := s }
  else if h.isA "uri" then do
    let v ← item.py1
    let s ← v.asStr
    pure { l with uri := s }
  else pure l

/-- Embedding of `NetlistLibrary.from_sexpr` (netitems.py lines 536-548). -/
def NetlistLibrary.from_sexpr (exp : SExp) : Except PyErr NetlistLibrary :=
  match exp with
  | .atom _ => .error .notAList
  | .list _ => do
    let h ← exp.py0
    if h.isA "library" then
      exp.pyTail.foldlM libraryStep {}
    else .error .wrongTag

/-- Embedding of `NetlistLibrary.to_sexpr` (netitems.py lines 550-564). -/
def NetlistLibrary.to_sexpr (l : NetlistLibrary)
    (indent : Nat := 2) (newline : Bool := true) : String :=
  let indents := spaces indent
  let endline := if newline then "\n" else ""
  indents ++ "(library (logical \"" ++ dequote l.logical ++ "\")\n"
    ++ indents ++ "  (uri \"" ++ dequote l.uri ++ "\"))" ++ endline

/-- Embedding of `NetlistLibpartPin` (netitems.py lines 565-577). -/
structure NetlistLibpartPin where
  num : String := ""
  name : String := ""
  pintype : String := ""
  pinfunction : Option String := none
deriving DecidableEq

/-- One step of the item loop of `NetlistLibpartPin.from_sexpr` (netitems.py
lines 600-604). -/
def libpartPinStep (p : NetlistLibpartPin) (item : SExp) :
    Except PyErr NetlistLibpartPin := do
  let h ← item.py0
  if h.isA "name" then do
    let v ← item.py1
    let s ← v.asStr
    pure { p with name := s }
  else if h.isA "num" then do
    let v ← item.py1
    let s ← v.asStr
    pure { p with num := s }
  else if h.isA "type" then do
    let v ← item.py1
    let s ← v.asStr
    pure { p with pintype := s }
  else if h.isA "pinfunction" then do
    let v ← item.py1
    let s ← v.asStr
    pure { p with pinfunction := some s }
  else pure p

/-- Embedding of `NetlistLibpartPin.from_sexpr` (netitems.py lines 579-605). -/
def NetlistLibpartPin.from_sexpr (exp : SExp) : Except PyErr NetlistLibpartPin :=
  match exp with
  | .atom _ => .error .notAList
  | .list _ => do
    let h ← exp.py0
    if h.isA "pin" then
      exp.pyTail.foldlM libpartPinStep {}
    else .error .wrongTag

/-- Embedding of `NetlistLibpartPin.to_sexpr` (netitems.py lines 607-627): the
`pinfunction` tag is omitted entirely when absent. -/
def NetlistLibpartPin.to_sexpr (p : NetlistLibpartPin)
    (indent : Nat := 2) (newline : Bool := true) : String :=
  let indents := spaces indent
  let endline := if newline then "\n" else ""
  let e1 := indents ++ "(pin" ++ " (num \"" ++ dequote p.num ++ "\")"
    ++ " (name \"" ++ dequote p.name ++ "\")"
    ++ " (type \"" ++ dequote p.pintype ++ "\")"
  let e2 :=
    match p.pinfunction with
    | some f => e1 ++ " (pinfunction \"" ++ dequote f ++ "\")"
    | none => e1
  e2 ++ ")" ++ endline

/-- Embedding of `NetlistLibpart` (netitems.py lines 629-644). -/
structure NetlistLibpart where
  lib : String := ""
  part : String := ""
  footprints : List String := []
  fields : List NetlistField := []
  pins : List NetlistLibpartPin := []
deriving DecidableEq

/-- The loop over a `footprints` sub-list (netitems.py lines 671-673):
`assert fp[0] == 'fp'` makes any child not tagged `fp` a hard assertion
failure; an `fp` child's payload is appended in order. -/
def footprintStep (acc : List String) (fp : SExp) :
    Except PyErr (List String) := do
  let fh ← fp.py0
  if fh.isA "fp" then do
    let v ← fp.py1
    let s ← v.asStr
    pure (acc ++ [s])
  else .error .assertionFailed

/-- One step of the item loop of `NetlistLibpart.from_sexpr` (netitems.py
lines 667-679). -/
def libpartStep (l : NetlistLibpart) (item : SExp) :
    Except PyErr NetlistLibpart := do
  let h ← item.py0
  if h.isA "lib" then do
    let v ← item.py1
    let s ← v.asStr
    pure { l with lib := s }
  else if h.isA "part" then do
    let v ← item.py1
    let s ← v.asStr
    pure { l with part := s }
  else if h.isA "footprints" then do
    let fps ← item.pyTail.foldlM footprintStep l.footprints
    pure { l with footprints := fps }
  else if h.isA "fields" then do
    let fs ← item.pyTail.foldlM
      (fun acc f => do
        let r ← NetlistField.from_sexpr f
        pure (acc ++ [r]))
      l.fields
    pure { l with fields := fs }
  else if h.isA "pins" then do
    let ps ← item.pyTail.foldlM
      (fun acc f => do
        let r ← NetlistLibpartPin.from_sexpr f
        pure (acc ++ [r]))
      l.pins
    pure { l with pins := ps }
  else pure l

/-- Embedding of `NetlistLibpart.from_sexpr` (netitems.py lines 646-680). -/
def NetlistLibpart.from_sexpr (exp : SExp) : Except PyErr NetlistLibpart :=
  match exp with
  | .atom _ => .error .notAList
  | .list _ => do
    let h ← exp.py0
    if h.isA "libpart" then
      exp.pyTail.foldlM libpartStep {}
    else .error .wrongTag

/-- Embedding of `NetlistLibpart.to_sexpr` (netitems.py lines 682-715): the `footprints`
container is emitted only when non-empty, while the `fields` and `pins`
containers are always emitted. -/
def NetlistLibpart.to_sexpr (l : NetlistLibpart)
    (indent : Nat := 2) (newline : Bool := true) : String :=
  let indents := spaces indent
  let endline := if newline then "\n" else ""
  let e1 := indents ++ "(libpart" ++ " (lib \"" ++ dequote l.lib ++ "\")"
    ++ " (part \"" ++ dequote l.part ++ "\")\n"
  let e2 :=
    if l.footprints.length > 0 then
      (l.footprints.foldl
        (fun acc fp => acc ++ indents ++ "    (fp \"" ++ dequote fp ++ "\")\n")
        (e1 ++ indents ++ "  (footprints\n")) ++ indents ++ "  )\n"
    else e1
  let e3 := (l.fields.foldl
    (fun acc f => acc ++ f.to_sexpr (indent + 4) true)
    (e2 ++ indents ++ "  (fields\n")) ++ indents ++ "  )\n"
  let e4 := (l.pins.foldl
    (fun acc p => acc ++ p.to_sexpr (indent + 4) true)
    (e3 ++ indents ++ "  (pins\n")) ++ indents ++ "  )\n"
  e4 ++ indents ++ ")" ++ endline

/-- Embedding of `NetlistNetNode` (netitems.py lines 719-733). -/
structure NetlistNetNode where
  ref : String := ""
  pin : String := ""
  pintype : String := ""
  pinfunction : Option String := none
deriving DecidableEq

/-- One step of the item loop of `NetlistNetNode.from_sexpr` (netitems.py
lines 756-761). -/
def netNodeStep (n : NetlistNetNode) (item : SExp) :
    Except PyErr NetlistNetNode := do
  let h ← item.py0
  if h.isA "pin" then do
    let v ← item.py1
    let s ← v.asStr
    pure { n with pin := s }
  else if h.isA "ref" then do
    let v ← item.py1
    let s ← v.asStr
    pure { n with ref := s }
  else if h.isA "pintype" then do
    let v ← item.py1
    let s ← v.asStr
    pure { n with pintype := s }
  else if h.isA "pinfunction" then do
    let v ← item.py1
    let s ← v.asStr
    pure { n with pinfunction := some s }
  else pure n

/-- Embedding of `NetlistNetNode.from_sexpr` (netitems.py lines 735-762). -/
def NetlistNetNode.from_sexpr (exp : SExp) : Except PyErr NetlistNetNode :=
  match exp with
  | .atom _ => .error .notAList
  | .list _ => do
    let h ← exp.py0
    if h.isA "node" then
      exp.pyTail.foldlM netNodeStep {}
    else .error .wrongTag

/-- Embedding of `NetlistNetNode.to_sexpr` (netitems.py lines 764-785): `pinfunction` is
omitted when absent; the source also guards `pintype` with `is not None`,
which is vacuous for the `str`-typed field, so `pintype` is always
emitted. -/
def NetlistNetNode.to_sexpr (n : NetlistNetNode)
    (indent : Nat := 0) (newline : Bool := true) : String :=
  let indents := spaces indent
  let endline := if newline then "\n" else ""
  let e1 := indents ++ "(node" ++ " (ref \"" ++ dequote n.ref ++ "\")"
    ++ " (pin \"" ++ dequote n.pin ++ "\")"
  let e2 :=
    match n.pinfunction with
    | some f => e1 ++ " (pinfunction \"" ++ dequote f ++ "\")"
    | none => e1
  e2 ++ " (pintype \"" ++ dequote n.pintype ++ "\")" ++ ")" ++ endline

/-- Embedding of `NetlistNet` (netitems.py lines 787-800). -/
structure NetlistNet where
  code : String := ""
  name : String := ""
  nodes : List NetlistNetNode := []
deriving DecidableEq

/-- One step of the item loop of `NetlistNet.from_sexpr` (netitems.py
lines 822-826). -/
def netStep (n : NetlistNet) (item : SExp) : Except PyErr NetlistNet := do
  let h ← item.py0
  if h.isA "code" then do
    let v ← item.py1
    let s ← v.asStr
    pure { n with code := s }
  else if h.isA "name" then do
    let v ← item.py1
    let s ← v.asStr
    pure { n with name := s }
  else if h.isA "node" then do
    let nd ← NetlistNetNode.from_sexpr item
    pure { n with nodes := n.nodes ++ [nd] }
  else pure n

/-- Embedding of `NetlistNet.from_sexpr` (netitems.py lines 802-827). -/
def NetlistNet.from_sexpr (exp : SExp) : Except PyErr NetlistNet :=
  match exp with
  | .atom _ => .error .notAList
  | .list _ => do
    let h ← exp.py0
    if h.isA "net" then
      exp.pyTail.foldlM netStep {}
    else .error .wrongTag

/-- Embedding of `NetlistNet.to_sexpr` (netitems.py lines 829-848). -/
def NetlistNet.to_sexpr (n : NetlistNet)
    (indent : Nat := 2) (newline : Bool := true) : String :=
  let indents := spaces indent
  let endline := if newline then "\n" else ""
  let e1 := indents ++ "(net" ++ " (code \"" ++ dequote n.code ++ "\")"
    ++ " (name \"" ++ dequote n.name ++ "\")\n"
  let e2 := n.nodes.foldl (fun acc nd => acc ++ nd.to_sexpr (indent + 2) true) e1
  e2 ++ indents ++ ")" ++ endline

/-- Embedding of `Netlist` (netlist.py lines 23-30): the whole document. -/
structure Netlist where
  version : String := ""
  design : NetlistDesign := {}
  components : List NetlistComponent := []
  libraries : List NetlistLibrary := []
  libparts : List NetlistLibpart := []
  nets : List NetlistNet := []
deriving DecidableEq

/-- One step of the item loop of `Netlist.from_sexpr` (netlist.py lines
53-68): the document root is strict — an unrecognized section tag raises
`Exception("Unexpected list item ...")`. -/
def netlistStep (n : Netlist) (item : SExp) : Except PyErr Netlist := do
  let h ← item.py0
  if h.isA "version" then do
    let v ← item.py1
    let s ← v.asStr
    pure { n with version := s }
  else if h.isA "design" then do
    let d ← NetlistDesign.from_sexpr item
    pure { n with design := d }
  else if h.isA "components" then do
    let cs ← item.pyTail.foldlM
      (fun acc c => do
        let r ← NetlistComponent.from_sexpr c
        pure (acc ++ [r]))
      n.components
    pure { n with components := cs }
  else if h.isA "libraries" then do
    let ls ← item.pyTail.foldlM
      (fun acc c => do
        let r ← NetlistLibrary.from_sexpr c
        pure (acc ++ [r]))
      n.libraries
    pure { n with libraries := ls }
  else if h.isA "libparts" then do
    let ls ← item.pyTail.foldlM
      (fun acc c => do
        let r ← NetlistLibpart.from_sexpr c
        pure (acc ++ [r]))
      n.libparts
    pure { n with libparts := ls }
  else if h.isA "nets" then do
    let ns ← item.pyTail.foldlM
      (fun acc c => do
        let r ← NetlistNet.from_sexpr c
        pure (acc ++ [r]))
      n.nets
    pure { n with nets := ns }
  else Except.error (PyErr.unknownSection h)

/-- Embedding of `Netlist.from_sexpr` (netlist.py lines 32-69): the document decoder,
dispatching the top-level sections in input order. -/
def Netlist.from_sexpr (exp : SExp) : Except PyErr Netlist :=
  match exp with
  | .atom _ => .error .notAList
  | .list _ => do
    let h ← exp.py0
    if h.isA "export" then
      exp.pyTail.foldlM netlistStep {}
    else .error .wrongTag

/-- Embedding of `Netlist.to_sexpr` (netlist.py lines 115-156): version header, design,
then the four sequence sections in the fixed order components, libparts,
libraries, nets; a section is preceded by a blank line and emitted only
when its sequence is non-empty.  (The source guards the design part with
`is not None`, vacuous for the declared non-optional field.) -/
def Netlist.to_sexpr (n : Netlist)
    (indent : Nat := 0) (newline : Bool := true) : Except PyErr String := do
  let indents := spaces indent
  let endline := if newline then "\n" else ""
  let e1 := indents ++ "(export (version \"" ++ dequote n.version ++ "\")\n"
  let d ← n.design.to_sexpr (indent + 2) true
  let e2 := e1 ++ d
  let e3 :=
    if n.components.isEmpty then e2
    else
      (n.components.foldl
        (fun acc c => acc ++ c.to_sexpr (indent + 4) true)
        (e2 ++ "\n" ++ "  (components\n")) ++ "  )\n"
  let e4 :=
    if n.libparts.isEmpty then e3
    else
      (n.libparts.foldl
        (fun acc c => acc ++ c.to_sexpr (indent + 4) true)
        (e3 ++ "\n" ++ "  (libparts\n")) ++ "  )\n"
  let e5 :=
    if n.libraries.isEmpty then e4
    else
      (n.libraries.foldl
        (fun acc c => acc ++ c.to_sexpr (indent + 4) true)
        (e4 ++ "\n" ++ "  (libraries\n")) ++ "  )\n"
  let e6 :=
    if n.nets.isEmpty then e5
    else
      (n.nets.foldl
        (fun acc c => acc ++ c.to_sexpr (indent + 4) true)
        (e5 ++ "\n" ++ "  (nets\n")) ++ "  )\n"
  pure (e6 ++ indents ++ ")" ++ endline)

/-- Error of the full encode-parse-decode pipeline, keeping the failing
stage apart. -/
inductive RTErr where
  | encodeStage : PyErr → RTErr
  | parseStage : ParseErr → RTErr
  | decodeStage : PyErr → RTErr
deriving DecidableEq

/-- The pipeline `decode(encode(D))` for a whole document: `Netlist.to_sexpr`, then the
list parser, then `Netlist.from_sexpr` (spec section 8, round-trip
identity). -/
def netlistRoundTrip (n : Netlist) : Except RTErr Netlist :=
  match n.to_sexpr 0 true with
  | .error e => .error (.encodeStage e)
  | .ok s =>
    match parseSexp s with
    | .error e => .error (.parseStage e)
    | .ok exp =>
      match Netlist.from_sexpr exp with
      | .error e => .error (.decodeStage e)
      | .ok r => .ok r

/-- The pipeline `decode(encode(tb))` for a single title block: `NetlistTitleBlock.to_sexpr`,
then the list parser, then `NetlistTitleBlock.from_sexpr`. -/
def titleBlockRoundTrip (tb : NetlistTitleBlock) : Except RTErr NetlistTitleBlock :=
  match tb.to_sexpr 2 true with
  | .error e => .error (.encodeStage e)
  | .ok s =>
    match parseSexp s with
    | .error e => .error (.parseStage e)
    | .ok exp =>
      match NetlistTitleBlock.from_sexpr exp with
      | .error e => .error (.decodeStage e)
      | .ok r => .ok r

/-- Does `pat` occur at the start of `s`? -/
def listStartsWith : List Char → List Char → Bool
  | _, [] => true
  | [], _ :: _ => false
  | c :: cs, p :: ps => c == p && listStartsWith cs ps

/-- Does `pat` occur anywhere in `s`? -/
def listContainsSub : List Char → List Char → Bool
  | [], pat => pat.isEmpty
  | s@(_ :: cs), pat => listStartsWith s pat || listContainsSub cs pat

/-- Substring occurrence test for rendered output. -/
def strContains (s pat : String) : Bool :=
  listContainsSub s.toList pat.toList

/-- A title block whose company field is set; all nine comments are present
so that the encoder's unconditional comment loop succeeds. -/
def tbCompanyX : NetlistTitleBlock :=
  { company := some "X", comments := List.replicate 9 (some "") }

/-- A valid document placing `tbCompanyX` on its single sheet. -/
def netlistC1 : Netlist :=
  { version := "E", design := { sheets := [{ title_block := tbCompanyX }] } }

set_option maxRecDepth 200000 in
/-- C1: the round-trip identity `decode(encode(D)) = D` fails on a valid
document whose title block carries a company string: the encoder emits
`(company "X")`, and the decoder's company branch raises NameError (its
`datetime.strptime` call names an unimported module), so the pipeline
aborts in the decode stage instead of returning `netlistC1`. -/
theorem netlist_roundtrip_fails_on_company :
    netlistRoundTrip netlistC1 = .error (.decodeStage .nameErr) := by
  decide

/-- C2: decoding `(title_block (company "X"))` does not store the string
"X" in the company field; the branch raises NameError.  By contrast the
`title` field (which the claim says `company` behaves like) is stored
unchanged. -/
theorem company_decode_raises_nameerror :
    NetlistTitleBlock.from_sexpr
        (.list [.atom "title_block", .list [.atom "company", .atom "X"]])
      = .error .nameErr
    ∧ NetlistTitleBlock.from_sexpr
        (.list [.atom "title_block", .list [.atom "title", .atom "X"]])
      = .ok { title := some "X" } := by
  constructor <;> decide

/-- A title block holding the comment value "hello" at 1-based index 3;
the other comments are present (empty) so that the encoder's unconditional
comment loop succeeds. -/
def tbHello : NetlistTitleBlock :=
  { comments := [some "", some "", some "hello"] ++ List.replicate 6 (some "") }

set_option maxRecDepth 200000 in
/-- C5: encoding a title block holding comment value "hello" at 1-based
index 3 emits the tag `(comment (number "3") (value "hello"))`, and
decoding the resulting text places "hello" at zero-based position 2 of the
decoded comments sequence. -/
theorem comment_index_roundtrip :
    (NetlistTitleBlock.to_sexpr tbHello 2 true).map
        (fun s => strContains s "(comment (number \"3\") (value \"hello\"))")
      = .ok true
    ∧ (titleBlockRoundTrip tbHello).map (fun tb => tb.comments.get? 2)
      = .ok (some (some "hello")) := by
  constructor <;> decide

/-- C9: a comment whose `number` sub-tag carries the string "0" is rejected
with the missing-comment-number error, whatever its value: the decoder's
zero-based index `int("0") - 1 = -1` coincides with the not-found
sentinel. -/
theorem comment_number_zero_missing_index (v : String) :
    NetlistTitleBlock.from_sexpr
        (.list [.atom "title_block",
          .list [.atom "comment", .list [.atom "number", .atom "0"],
            .list [.atom "value", .atom v]]])
      = .error .missingCommentNumber := by
  rfl

/-- C10: the field encoder emits the value payload only on truthiness, so a
field whose value is the empty string renders exactly like a field with no
value at all. -/
theorem field_empty_value_encodes_as_absent
    (nm : String) (indent : Nat) (newline : Bool) :
    NetlistField.to_sexpr { name := nm, value := some "" } indent newline
      = NetlistField.to_sexpr { name := nm, value := none } indent newline := by
  rfl

/-! ## Monad reduction helpers for `Except` -/

theorem except_ok_bind {ε α β : Type} (a : α) (f : α → Except ε β) :
    (Except.ok a >>= f : Except ε β) = f a := rfl

theorem except_error_bind {ε α β : Type} (e : ε) (f : α → Except ε β) :
    ((Except.error e : Except ε α) >>= f) = Except.error e := rfl

theorem except_pure_eq {ε α : Type} (a : α) : (pure a : Except ε α) = Except.ok a := rfl

theorem except_map_ok {ε α β : Type} (f : α → β) (a : α) :
    (Except.ok a : Except ε α).map f = .ok (f a) := rfl

theorem except_map_error {ε α β : Type} (f : α → β) (e : ε) :
    (Except.error e : Except ε α).map f = .error e := rfl

theorem except_bind_pure_ok {ε α β : Type} (x : Except ε α) (g : α → β) (b : β)
    (h : (x >>= fun a => pure (g a)) = Except.ok b) : ∃ a, x = .ok a ∧ b = g a := by
  cases x with
  | error e => rw [except_error_bind] at h; exact absurd h (by simp)
  | ok a =>
    rw [except_ok_bind, except_pure_eq] at h
    injection h with h
    exact ⟨a, rfl, h.symm⟩

/-! ## Reduction of the decoders on well-tagged lists -/

theorem netlist_from_sexpr_cons (L : List SExp) :
    Netlist.from_sexpr (.list (.atom "export" :: L)) = L.foldlM netlistStep {} := rfl

theorem component_from_sexpr_cons (L : List SExp) :
    NetlistComponent.from_sexpr (.list (.atom "comp" :: L)) = L.foldlM componentStep {} := rfl

theorem libpart_from_sexpr_cons (L : List SExp) :
    NetlistLibpart.from_sexpr (.list (.atom "libpart" :: L)) = L.foldlM libpartStep {} := rfl

theorem titleblock_from_sexpr_cons (L : List SExp) :
    NetlistTitleBlock.from_sexpr (.list (.atom "title_block" :: L))
      = (L.foldlM titleBlockStep ({}, none)) >>= fun r => pure r.1 := rfl

/-- An element with an unrecognized tag leaves the component decoder's
state unchanged (netitems.py lines 482-493 have no else branch). -/
theorem componentStep_unknown_tag (c : NetlistComponent) (t : String) (rest : List SExp)
    (h1 : t ≠ "ref") (h2 : t ≠ "value") (h3 : t ≠ "tstamps") (h4 : t ≠ "libsource")
    (h5 : t ≠ "sheetpath") (h6 : t ≠ "fields") (h7 : t ≠ "property") :
    componentStep c (.list (.atom t :: rest)) = .ok c := by
  simp [componentStep, SExp.py0, SExp.isA, except_ok_bind, beq_iff_eq,
    h1, h2, h3, h4, h5, h6, h7, except_pure_eq]

/-- An element with an unrecognized tag makes the document decoder raise
the unknown-section error (netlist.py line 68). -/
theorem netlistStep_unknown_tag (n : Netlist) (t : String) (rest : List SExp)
    (h1 : t ≠ "version") (h2 : t ≠ "design") (h3 : t ≠ "components")
    (h4 : t ≠ "libraries") (h5 : t ≠ "libparts") (h6 : t ≠ "nets") :
    netlistStep n (.list (.atom t :: rest)) = .error (.unknownSection (.atom t)) := by
  simp [netlistStep, SExp.py0, SExp.isA, except_ok_bind, beq_iff_eq,
    h1, h2, h3, h4, h5, h6]

/-- C4: decoding is permissive at leaf level but strict at the root.
Appending a sub-element with an unrecognized tag to a `comp` list that
decodes to `c` still decodes to `c` (the element is silently ignored),
while appending one to an `export` list that decodes successfully makes
the document decoder fail with the unknown-section error. -/
theorem comp_permissive_export_strict
    (items exportItems rest : List SExp) (t : String) (x : SExp)
    (c : NetlistComponent) (n : Netlist)
    (hct : t ∉ (["ref", "value", "tstamps", "libsource", "sheetpath", "fields", "property"] : List String))
    (hnt : t ∉ (["version", "design", "components", "libraries", "libparts", "nets"] : List String))
    (hc : NetlistComponent.from_sexpr (.list (.atom "comp" :: items)) = .ok c)
    (hn : Netlist.from_sexpr (.list (.atom "export" :: exportItems)) = .ok n) :
    NetlistComponent.from_sexpr (.list (.atom "comp" :: (items ++ [.list (.atom t :: rest)]))) = .ok c
    ∧ Netlist.from_sexpr (.list (.atom "export" :: (exportItems ++ [.list [.atom t, x]])))
        = .error (.unknownSection (.atom t)) := by
  simp only [List.mem_cons, List.not_mem_nil, or_false, not_or] at hct hnt
  obtain ⟨h1, h2, h3, h4, h5, h6, h7⟩ := hct
  obtain ⟨g1, g2, g3, g4, g5, g6⟩ := hnt
  rw [component_from_sexpr_cons] at hc
  rw [netlist_from_sexpr_cons] at hn
  constructor
  · rw [component_from_sexpr_cons, List.foldlM_append, hc, except_ok_bind,
      List.foldlM_cons, componentStep_unknown_tag c t rest h1 h2 h3 h4 h5 h6 h7,
      except_ok_bind, List.foldlM_nil, except_pure_eq]
  · rw [netlist_from_sexpr_cons, List.foldlM_append, hn, except_ok_bind,
      List.foldlM_cons, netlistStep_unknown_tag n t [x] g1 g2 g3 g4 g5 g6,
      except_error_bind]

/-- Witness for C4 at a concrete component and document with a `bogus`
element. -/
theorem comp_permissive_export_strict_witness :
    NetlistComponent.from_sexpr (.list [.atom "comp", .list [.atom "ref", .atom "R1"]])
      = .ok { ref := "R1" }
    ∧ NetlistComponent.from_sexpr
        (.list [.atom "comp", .list [.atom "ref", .atom "R1"], .list [.atom "bogus", .atom "x"]])
      = .ok { ref := "R1" }
    ∧ Netlist.from_sexpr
        (.list [.atom "export", .list [.atom "version", .atom "9"], .list [.atom "bogus", .atom "y"]])
      = .error (.unknownSection (.atom "bogus")) :=
  ⟨by decide,
    comp_permissive_export_strict
      [.list [.atom "ref", .atom "R1"]] [.list [.atom "version", .atom "9"]]
      [.atom "x"] "bogus" (.atom "y") { ref := "R1" } { version := "9" }
      (by decide) (by decide) (by decide) (by decide)⟩

/-! ## Footprint strictness (C7) -/

theorem footprintStep_fp (acc : List String) (s : String) :
    footprintStep acc (.list [.atom "fp", .atom s]) = .ok (acc ++ [s]) := rfl

theorem footprintStep_bad (acc : List String) (t : String) (rest : List SExp)
    (ht : t ≠ "fp") :
    footprintStep acc (.list (.atom t :: rest)) = .error .assertionFailed := by
  simp [footprintStep, SExp.py0, SExp.isA, except_ok_bind, beq_iff_eq, ht]

theorem footprintFold_ok (strs : List String) (acc : List String) :
    (strs.map (fun s => SExp.list [SExp.atom "fp", SExp.atom s])).foldlM footprintStep acc
      = .ok (acc ++ strs) := by
  induction strs generalizing acc with
  | nil => simp [List.foldlM_nil, except_pure_eq]
  | cons s ss ih =>
    rw [List.map_cons, List.foldlM_cons, footprintStep_fp, except_ok_bind, ih]
    simp

/-- C7: the libpart decoder's `footprints` loop is strict.  When every
child is `fp`-tagged, the payload strings are collected in order; as soon
as a child with any other tag appears, decoding fails with the hard
assertion failure instead of skipping it. -/
theorem footprints_fp_only (strs : List String) (t : String) (rest : List SExp)
    (ht : t ≠ "fp") :
    NetlistLibpart.from_sexpr (.list [.atom "libpart",
        .list (.atom "footprints" :: strs.map (fun s => SExp.list [SExp.atom "fp", SExp.atom s]))])
      = .ok { footprints := strs }
    ∧ NetlistLibpart.from_sexpr (.list [.atom "libpart",
        .list (.atom "footprints" ::
          (strs.map (fun s => SExp.list [SExp.atom "fp", SExp.atom s])
            ++ [.list (.atom t :: rest)]))])
      = .error .assertionFailed := by
  constructor
  · have hstep : libpartStep {}
        (.list (.atom "footprints" :: strs.map (fun s => SExp.list [SExp.atom "fp", SExp.atom s])))
        = .ok { footprints := strs } := by
      simp [libpartStep, SExp.py0, SExp.isA, SExp.pyTail, except_ok_bind,
        footprintFold_ok, except_pure_eq]
    rw [libpart_from_sexpr_cons, List.foldlM_cons, hstep, except_ok_bind,
      List.foldlM_nil, except_pure_eq]
  · have hfold : (strs.map (fun s => SExp.list [SExp.atom "fp", SExp.atom s])
        ++ [SExp.list (SExp.atom t :: rest)]).foldlM footprintStep ([] : List String)
        = .error .assertionFailed := by
      rw [List.foldlM_append, footprintFold_ok, except_ok_bind, List.foldlM_cons,
        footprintStep_bad _ t rest ht, except_error_bind]
    have hstep : libpartStep {}
        (.list (.atom "footprints" ::
          (strs.map (fun s => SExp.list [SExp.atom "fp", SExp.atom s])
            ++ [.list (.atom t :: rest)])))
        = .error .assertionFailed := by
      simp [libpartStep, SExp.py0, SExp.isA, SExp.pyTail, except_ok_bind, hfold]
    rw [libpart_from_sexpr_cons, List.foldlM_cons, hstep, except_error_bind]

/-- Witness for C7 at a concrete footprints list with a `bogus` child. -/
theorem footprints_fp_only_witness :
    NetlistLibpart.from_sexpr (.list [.atom "libpart",
        .list [.atom "footprints", .list [.atom "fp", .atom "a"], .list [.atom "fp", .atom "b"]]])
      = .ok { footprints := ["a", "b"] }
    ∧ NetlistLibpart.from_sexpr (.list [.atom "libpart",
        .list [.atom "footprints", .list [.atom "fp", .atom "a"], .list [.atom "fp", .atom "b"],
          .list [.atom "bogus", .atom "x"]]])
      = .error .assertionFailed :=
  footprints_fp_only ["a", "b"] "bogus" [.atom "x"] (by decide)

/-! ## Comment index handling (C6) -/

theorem commentSubStep_not_number (st : Int × Option String) (tag payload : String)
    (hne : tag ≠ "number") :
    commentSubStep st (.list [.atom tag, .atom payload])
      = .ok (st.1, if tag = "value" then some payload else st.2) := by
  by_cases hv : tag = "value"
  · subst hv
    simp [commentSubStep, SExp.py0, SExp.py1, SExp.asStr, SExp.isA, except_ok_bind,
      except_pure_eq, beq_iff_eq, hne]
  · simp [commentSubStep, SExp.py0, SExp.py1, SExp.asStr, SExp.isA, except_ok_bind,
      except_pure_eq, beq_iff_eq, hne, hv]

theorem commentSubFold_no_number (subs : List SExp) (cv : Option String)
    (hsubs : ∀ s ∈ subs, ∃ tag payload,
      s = SExp.list [SExp.atom tag, SExp.atom payload] ∧ tag ≠ "number") :
    ∃ cv', subs.foldlM commentSubStep ((-1 : Int), cv) = .ok (-1, cv') := by
  induction subs generalizing cv with
  | nil => exact ⟨cv, by simp [List.foldlM_nil, except_pure_eq]⟩
  | cons s ss ih =>
    obtain ⟨tag, payload, hs, hne⟩ := hsubs s (List.mem_cons_self s ss)
    subst hs
    rw [List.foldlM_cons, commentSubStep_not_number _ tag payload hne, except_ok_bind]
    simpa using ih _ (fun u hu => hsubs u (List.mem_cons_of_mem _ hu))

/-- C6: a title-block comment whose sub-elements carry no `number` tag is
rejected with the missing-comment-number error before anything is stored,
and a comment with number `k` (1-based, in range) and value `v` stores `v`
at zero-based position `k - 1` of the comments sequence. -/
theorem comment_number_required
    (subs : List SExp) (k : Nat) (v : String)
    (hsubs : ∀ s ∈ subs, ∃ tag payload,
      s = SExp.list [SExp.atom tag, SExp.atom payload] ∧ tag ≠ "number")
    (hk1 : 1 ≤ k) (hk9 : k ≤ 9) :
    NetlistTitleBlock.from_sexpr (.list [.atom "title_block", .list (.atom "comment" :: subs)])
      = .error .missingCommentNumber
    ∧ (NetlistTitleBlock.from_sexpr (.list [.atom "title_block",
        .list [.atom "comment", .list [.atom "number", .atom (toString k)],
          .list [.atom "value", .atom v]]])).map (fun tb => tb.comments.get? (k - 1))
      = .ok (some (some v)) := by
  constructor
  · obtain ⟨cv', hfold⟩ := commentSubFold_no_number subs none hsubs
    have hstep : titleBlockStep ({}, none) (.list (.atom "comment" :: subs))
        = .error .missingCommentNumber := by
      simp [titleBlockStep, SExp.py0, SExp.isA, SExp.pyTail, SExp.pyLen,
        except_ok_bind, hfold]
    rw [titleblock_from_sexpr_cons, List.foldlM_cons, hstep, except_error_bind,
      except_error_bind]
  · interval_cases k <;> rfl

/-- Witness for C6: a comment with only a value errors; number "4" stores
at position 3. -/
theorem comment_number_required_witness :
    NetlistTitleBlock.from_sexpr (.list [.atom "title_block",
        .list [.atom "comment", .list [.atom "value", .atom "w"]]])
      = .error .missingCommentNumber
    ∧ (NetlistTitleBlock.from_sexpr (.list [.atom "title_block",
        .list [.atom "comment", .list [.atom "number", .atom "4"],
          .list [.atom "value", .atom "zz"]]])).map (fun tb => tb.comments.get? 3)
      = .ok (some (some "zz")) :=
  comment_number_required [.list [.atom "value", .atom "w"]] 4 "zz"
    (fun s hs => by
      simp only [List.mem_singleton] at hs
      exact ⟨"value", "w", hs, by decide⟩)
    (by decide) (by decide)

/-! ## Fixed output section order (C8) -/

/-- Concatenation of rendered bodies (used by the spec-side section
rendering). -/
def strJoin (xs : List String) : String :=
  xs.foldl (fun acc x => acc ++ x) ""

/-- Spec-side rendering of one optional sequence section (spec sections
4.3 and 4.4): the section is omitted entirely when its sequence is empty,
and otherwise is preceded by a blank line, opens with its container tag,
holds the rendered items in order, and closes. -/
def specSection (opener : String) (bodies : List String) : String :=
  if bodies.isEmpty then ""
  else "\n" ++ opener ++ strJoin bodies ++ "  )\n"

theorem foldl_append_factor {α : Type} (f : α → String) (xs : List α) (a : String) :
    xs.foldl (fun acc x => acc ++ f x) a = a ++ xs.foldl (fun acc x => acc ++ f x) "" := by
  induction xs generalizing a with
  | nil => simp [String.append_empty]
  | cons x xst ih =>
    rw [List.foldl_cons, List.foldl_cons, ih (a ++ f x), ih ("" ++ f x)]
    simp [String.empty_append, String.append_assoc]

theorem section_factor {α : Type} (xs : List α) (enc : α → String) (base opener : String) :
    (if xs.isEmpty then base
     else (xs.foldl (fun acc x => acc ++ enc x) (base ++ "\n" ++ opener)) ++ "  )\n")
      = base ++ specSection opener (xs.map enc) := by
  cases xs with
  | nil => simp [specSection, strJoin, String.append_empty]
  | cons x xst =>
    rw [if_neg (by simp), foldl_append_factor, specSection, if_neg (by simp),
      strJoin, List.foldl_map]
    simp [String.append_assoc]

/-- C8: the document encoder emits the version header, then the design
section, then the four sequence sections in the fixed order components,
libparts, libraries, nets — a function of the record's fields only, hence
independent of any population order — where each section is preceded by a
blank line when its sequence is non-empty and is omitted entirely (tag
included) when it is empty. -/
theorem netlist_sections_fixed_order (n : Netlist) (indent : Nat) (newline : Bool) :
    Netlist.to_sexpr n indent newline
      = (NetlistDesign.to_sexpr n.design (indent + 2) true).map (fun d =>
          spaces indent ++ "(export (version \"" ++ dequote n.version ++ "\")\n" ++ d
          ++ specSection "  (components\n"
              (n.components.map (fun c => c.to_sexpr (indent + 4) true))
          ++ specSection "  (libparts\n"
              (n.libparts.map (fun c => c.to_sexpr (indent + 4) true))
          ++ specSection "  (libraries\n"
              (n.libraries.map (fun c => c.to_sexpr (indent + 4) true))
          ++ specSection "  (nets\n"
              (n.nets.map (fun c => c.to_sexpr (indent + 4) true))
          ++ spaces indent ++ ")" ++ (if newline then "\n" else "")) := by
  unfold Netlist.to_sexpr
  cases hd : NetlistDesign.to_sexpr n.design (indent + 2) true with
  | error e => rfl
  | ok d =>
    simp only [except_ok_bind, except_map_ok, except_pure_eq]
    simp only [section_factor]

/-! ## Title-block scalar rendering (C3) -/

theorem commentLinesFold_shift (ind a b : String) (cs : List (Nat × Option String)) :
    commentLinesFold ind (a ++ b) cs = (commentLinesFold ind b cs).map (fun t => a ++ t) := by
  induction cs generalizing b with
  | nil => rfl
  | cons c cst ih =>
    simp only [commentLinesFold, List.foldlM_cons]
    cases hdq : dequoteOpt c.2 with
    | error e => simp [hdq, except_error_bind, except_map_error]
    | ok v =>
      simp only [hdq, except_ok_bind, except_pure_eq]
      rw [String.append_assoc a, String.append_assoc a, String.append_assoc a,
        String.append_assoc a, String.append_assoc a, String.append_assoc a]
      exact ih _

theorem commentLinesFold_ok_split (ind init : String) (cs : List (Nat × Option String))
    (r : String) (h : commentLinesFold ind init cs = .ok r) :
    ∃ t, r = init ++ t := by
  have hsh := commentLinesFold_shift ind init "" cs
  rw [String.append_empty] at hsh
  rw [hsh] at h
  cases hc : commentLinesFold ind "" cs with
  | error e => rw [hc, except_map_error] at h; exact absurd h (by simp)
  | ok t =>
    rw [hc, except_map_ok] at h
    injection h with h
    exact ⟨t, h.symm⟩

/-- C3 (amended): whenever the title-block encoder succeeds, the output
renders each of the four optional scalar fields title, company, rev and
date as an empty tag when that field is absent, and the `name` field (the
document name) is never rendered at all: the output is unchanged under any
value of `name`. -/
theorem titleblock_empty_tags_amended (tb : NetlistTitleBlock) (i : Nat) (nl : Bool)
    (s : String) (h : NetlistTitleBlock.to_sexpr tb i nl = .ok s) :
    (tb.title = none → ∃ p q, s = p ++ (spaces i ++ "  (title)\n") ++ q)
    ∧ (tb.company = none → ∃ p q, s = p ++ (spaces i ++ "  (company)\n") ++ q)
    ∧ (tb.rev = none → ∃ p q, s = p ++ (spaces i ++ "  (rev)\n") ++ q)
    ∧ (tb.date = none → ∃ p q, s = p ++ (spaces i ++ "  (date)\n") ++ q)
    ∧ (∀ x, NetlistTitleBlock.to_sexpr { tb with name := x } i nl = .ok s) := by
  simp only [NetlistTitleBlock.to_sexpr] at h
  obtain ⟨e7, hcl, hs⟩ := except_bind_pure_ok _ _ _ h
  obtain ⟨t, ht⟩ := commentLinesFold_ok_split _ _ _ _ hcl
  rw [ht] at hs
  refine ⟨?_, ?_, ?_, ?_, ?_⟩
  · intro h0
    simp only [h0] at hs
    exact ⟨spaces i ++ "(title_block\n",
      (match tb.company with
        | some v => spaces i ++ "  (company \"" ++ dequote v ++ "\")\n"
        | none => spaces i ++ "  (company)\n")
      ++ (match tb.rev with
          | some v => spaces i ++ "  (rev \"" ++ dequote v ++ "\")\n"
          | none => spaces i ++ "  (rev)\n")
      ++ (match tb.date with
          | some v => spaces i ++ "  (date \"" ++ dequote v ++ "\")\n"
          | none => spaces i ++ "  (date)\n")
      ++ (spaces i ++ "  (source \"" ++ dequote tb.source ++ "\")\n")
      ++ t ++ (spaces i ++ ")" ++ (if nl = true then "\n" else "")),
      by rw [hs]; simp [String.append_assoc]⟩
  · intro h0
    simp only [h0] at hs
    exact ⟨spaces i ++ "(title_block\n"
      ++ (match tb.title with
          | some v => spaces i ++ "  (title \"" ++ dequote v ++ "\")\n"
          | none => spaces i ++ "  (title)\n"),
      (match tb.rev with
        | some v => spaces i ++ "  (rev \"" ++ dequote v ++ "\")\n"
        | none => spaces i ++ "  (rev)\n")
      ++ (match tb.date with
          | some v => spaces i ++ "  (date \"" ++ dequote v ++ "\")\n"
          | none => spaces i ++ "  (date)\n")
      ++ (spaces i ++ "  (source \"" ++ dequote tb.source ++ "\")\n")
      ++ t ++ (spaces i ++ ")" ++ (if nl = true then "\n" else "")),
      by rw [hs]; simp [String.append_assoc]⟩
  · intro h0
    simp only [h0] at hs
    exact ⟨spaces i ++ "(title_block\n"
      ++ (match tb.title with
          | some v => spaces i ++ "  (title \"" ++ dequote v ++ "\")\n"
          | none => spaces i ++ "  (title)\n")
      ++ (match tb.company with
          | some v => spaces i ++ "  (company \"" ++ dequote v ++ "\")\n"
          | none => spaces i ++ "  (company)\n"),
      (match tb.date with
        | some v => spaces i ++ "  (date \"" ++ dequote v ++ "\")\n"
        | none => spaces i ++ "  (date)\n")
      ++ (spaces i ++ "  (source \"" ++ dequote tb.source ++ "\")\n")
      ++ t ++ (spaces i ++ ")" ++ (if nl = true then "\n" else "")),
      by rw [hs]; simp [String.append_assoc]⟩
  · intro h0
    simp only [h0] at hs
    exact ⟨spaces i ++ "(title_block\n"
      ++ (match tb.title with
          | some v => spaces i ++ "  (title \"" ++ dequote v ++ "\")\n"
          | none => spaces i ++ "  (title)\n")
      ++ (match tb.company with
          | some v => spaces i ++ "  (company \"" ++ dequote v ++ "\")\n"
          | none => spaces i ++ "  (company)\n")
      ++ (match tb.rev with
          | some v => spaces i ++ "  (rev \"" ++ dequote v ++ "\")\n"
          | none => spaces i ++ "  (rev)\n"),
      (spaces i ++ "  (source \"" ++ dequote tb.source ++ "\")\n")
      ++ t ++ (spaces i ++ ")" ++ (if nl = true then "\n" else "")),
      by rw [hs]; simp [String.append_assoc]⟩
  · intro x
    exact h

/-- A title block with every scalar field absent (all nine comments are
present so that the encoder's unconditional comment loop succeeds). -/
def tbC3 : NetlistTitleBlock := { comments := List.replicate 9 (some "") }

/-- The text the title-block encoder produces for `tbC3`. -/
def tbC3out : String :=
  match NetlistTitleBlock.to_sexpr tbC3 2 true with
  | .ok s => s
  | .error _ => ""

set_option maxRecDepth 100000 in
/-- C3 counterexample: at a title block whose five optional scalar fields
are all absent, the encoder succeeds but the output contains no `(name`
tag at all — the document name is not rendered as an empty tag — while the
title does render as the empty tag `(title)`. -/
theorem titleblock_name_empty_tag_cex :
    tbC3.name = none
    ∧ (NetlistTitleBlock.to_sexpr tbC3 2 true).map (fun s => strContains s "(name") = .ok false
    ∧ (NetlistTitleBlock.to_sexpr tbC3 2 true).map (fun s => strContains s "(title)") = .ok true := by
  refine ⟨rfl, ?_, ?_⟩ <;> decide

set_option maxRecDepth 100000 in
/-- Witness for the amended C3 at the concrete title block `tbC3`. -/
theorem titleblock_empty_tags_amended_witness :
    (∃ p q, tbC3out = p ++ (spaces 2 ++ "  (title)\n") ++ q)
    ∧ NetlistTitleBlock.to_sexpr { tbC3 with name := some "Z" } 2 true = .ok tbC3out := by
  have h : NetlistTitleBlock.to_sexpr tbC3 2 true = .ok tbC3out := by decide
  have H := titleblock_empty_tags_amended tbC3 2 true tbC3out h
  exact ⟨H.1 rfl, H.2.2.2.2 (some "Z")⟩
